import Mathlib

/-!
Shallow embedding of the shared-memory SPMC latest-value container of this
repository (class `SharedDataContainer`). The container logic is embedded from
`include/shared_data_container.h`, the version the unit tests
(`tests/shared_data_container_tests.cpp`) build against; the inline copy of the
class in `src/main.cpp` is identical except that it predates the double-lock
check in `ReaderLock`.

The embedding is single-threaded: each C++ member function becomes a pure Lean
function from the container state to a result paired with the successor state.
A function that throws returns its error constructor together with the
unchanged state (in the C++ the throws all happen before any mutation of the
shared words). The `ReaderLock` retry loop has, in a single-threaded run, at
most one interesting iteration: the CAS always succeeds (no concurrent writer
can change the word), and the `continue` branch re-reads an unchanged
`current_slot_id_`, i.e. the loop would spin forever; that branch is modelled
by the dedicated outcome `errSpin`.

The 32-bit state words are modelled as `Nat`; the C++ `~mask` complement on a
`uint32_t` is modelled by XOR against `2^32 - 1` (`not32`).
-/

/-- One published value. In the reference code a single `uint64_t val`. -/
structure Message where
  val : Nat
deriving DecidableEq, Inhabited

/-- The writer-owned mark: the highest bit of a slot's 32-bit state word
(`Slot::used_by_writer = 1 << 31`). -/
def used_by_writer : Nat := 2 ^ 31

/-- One slot: a 32-bit state word (`used_by`) and a payload (`message`).
Bits `[0, N)` of `used_by` are reader-pin bits, bit 31 is the writer mark. -/
structure Slot where
  used_by : Nat
  message : Message
deriving DecidableEq, Inhabited

/-- The container state: `current_slot_id_` (0 = empty, otherwise 1 + index of
the slot with the most recent message) and the slot array. In the C++ the
array's length is `Configuration::number_of_processes + 1`; here the length is
that of the list and theorems constrain it where the claim needs it. -/
structure SharedDataContainer where
  current_slot_id_ : Nat
  slots : List Slot
deriving DecidableEq, Inhabited

/-- Complement of `b` within a 32-bit word: `~b` on `uint32_t`. -/
def not32 (b : Nat) : Nat := (2 ^ 32 - 1) ^^^ b

/-- `slots[n].message = msg` (`WriterUpdateMessage`'s payload store). -/
def setMessage (l : List Slot) (n : Nat) (m : Message) : List Slot :=
  l.set n { l.getD n default with message := m }

/-- `atomic_fetch_or(&slots[n].used_by, b)` (result value discarded). -/
def orBits (l : List Slot) (n : Nat) (b : Nat) : List Slot :=
  l.set n { l.getD n default with used_by := (l.getD n default).used_by ||| b }

/-- `atomic_fetch_and(&slots[n].used_by, b)` (result value discarded). -/
def andBits (l : List Slot) (n : Nat) (b : Nat) : List Slot :=
  l.set n { l.getD n default with used_by := (l.getD n default).used_by &&& b }

/-- `IsEmpty`: true iff `current_slot_id_ == 0` (named with the container
prefixed because the bare name exists in Mathlib). -/
def SharedDataContainer.IsEmpty (c : SharedDataContainer) : Bool :=
  c.current_slot_id_ == 0

/-- Outcome of `ReaderLock`. `errEmpty` and `errDoubleLock` are the two
`throw std::runtime_error` paths; `errSpin` models the single-threaded
non-termination of the retry loop when the current slot has lost its writer
mark; `ok handle` is the normal return. -/
inductive RLResult where
  | errEmpty
  | errSpin
  | errDoubleLock
  | ok (handle : Nat)
deriving DecidableEq

/-- `ReaderLock(process_index)` from `shared_data_container.h`: pin the current
slot. Single-threaded semantics: the CAS succeeds on the first attempt, so the
loop body runs once; the `continue` taken when the writer mark is absent would
re-read an unchanged `current_slot_id_` and loop forever (`errSpin`). -/
def ReaderLock (c : SharedDataContainer) (process_index : Nat) :
    RLResult × SharedDataContainer :=
  if c.current_slot_id_ = 0 then (.errEmpty, c)
  else
    let slot_index := c.current_slot_id_ - 1
    let current_value := (c.slots.getD slot_index default).used_by
    if current_value &&& used_by_writer = 0 then (.errSpin, c)
    else if current_value &&& 2 ^ process_index ≠ 0 then (.errDoubleLock, c)
    else (.ok slot_index,
      { c with slots := orBits c.slots slot_index (2 ^ process_index) })

/-- Outcome of `ReaderUnlock`. -/
inductive URResult where
  | errNotLocked
  | ok
deriving DecidableEq

/-- `ReaderUnlock(process_index, handle)`: clear the caller's pin bit on the
slot named by `handle`; throw when that bit is not set. -/
def ReaderUnlock (c : SharedDataContainer) (process_index handle : Nat) :
    URResult × SharedDataContainer :=
  let current_value := (c.slots.getD handle default).used_by
  if current_value &&& 2 ^ process_index = 0 then (.errNotLocked, c)
  else (.ok, { c with slots := andBits c.slots handle (not32 (2 ^ process_index)) })

/-- Body of the `ReaderReset` loop for one slot. -/
def readerResetSlot (process_index : Nat) (s : Slot) : Slot :=
  if s.used_by &&& 2 ^ process_index ≠ 0 then
    { s with used_by := s.used_by &&& not32 (2 ^ process_index) }
  else s

/-- `ReaderReset(process_index)`: clear the process's pin bit on every slot. -/
def ReaderReset (c : SharedDataContainer) (process_index : Nat) :
    SharedDataContainer :=
  { c with slots := c.slots.map (readerResetSlot process_index) }

/-- `ReaderGetMessage(handle)`: the payload of the slot named by `handle`
(the C++ returns a pointer to it; the embedding returns the value read
through that pointer). -/
def ReaderGetMessage (c : SharedDataContainer) (handle : Nat) : Message :=
  (c.slots.getD handle default).message

/-- The free-slot scan of `WriterUpdateMessage`: index of the first slot whose
state word is zero. -/
def findFreeSlot : List Slot → Option Nat
  | [] => none
  | s :: rest =>
    if s.used_by = 0 then some 0 else (findFreeSlot rest).map (· + 1)

/-- Outcome of `WriterUpdateMessage`. `noFreeSlot` is the
`throw std::runtime_error("No free slots for writer")` path. -/
inductive WResult where
  | noFreeSlot
  | ok
deriving DecidableEq

/-- `WriterUpdateMessage(msg)`: store `msg` in the first free slot `n`, OR the
writer mark into slot `n`'s state word, move `current_slot_id_` to `n + 1`,
and, when the previous id was nonzero, AND the writer mark out of the
previously current slot. -/
def WriterUpdateMessage (c : SharedDataContainer) (msg : Message) :
    WResult × SharedDataContainer :=
  match findFreeSlot c.slots with
  | none => (.noFreeSlot, c)
  | some next_slot_index =>
    let slots2 := orBits (setMessage c.slots next_slot_index msg)
                    next_slot_index used_by_writer
    let old_slot_id := c.current_slot_id_
    let c1 : SharedDataContainer :=
      { current_slot_id_ := next_slot_index + 1, slots := slots2 }
    if old_slot_id > 0 then
      (.ok, { c1 with
        slots := andBits c1.slots (old_slot_id - 1) (not32 used_by_writer) })
    else (.ok, c1)

/-- Body of the `WriterReset` loop: slot at (signed) position `i`, compared
against `current_slot_id_ - 1` computed in `int` arithmetic (so with
`current_slot_id_ == 0` the comparison value is `-1` and no slot is spared). -/
def writerResetSlot (cur1 : Int) (i : Nat) (s : Slot) : Slot :=
  if (i : Int) ≠ cur1 ∧ s.used_by &&& used_by_writer ≠ 0 then
    { s with used_by := s.used_by &&& not32 used_by_writer }
  else s

/-- The `WriterReset` loop over the tail of the slot array starting at
index `i0`. -/
def writerResetSlots (cur1 : Int) : Nat → List Slot → List Slot
  | _, [] => []
  | i0, s :: rest => writerResetSlot cur1 i0 s :: writerResetSlots cur1 (i0 + 1) rest

/-- `WriterReset()`: clear the writer mark from every slot other than the one
at `current_slot_id_ - 1` (signed arithmetic: with id 0 every slot is
processed). -/
def WriterReset (c : SharedDataContainer) : SharedDataContainer :=
  { c with slots := writerResetSlots ((c.current_slot_id_ : Int) - 1) 0 c.slots }

/-- The all-zero initial container for `N` processes: the state of a freshly
zero-filled shared-memory region, `N + 1` slots. -/
def initContainer (N : Nat) : SharedDataContainer :=
  { current_slot_id_ := 0, slots := List.replicate (N + 1) default }

/-- One container operation, for reachability statements. -/
inductive Op where
  | readerLockOp (p : Nat)
  | readerUnlockOp (p handle : Nat)
  | readerResetOp (p : Nat)
  | writerPublishOp (m : Message)
  | writerResetOp
deriving DecidableEq

/-- The state after one operation; an operation that fails (throws) leaves the
state unchanged, which is what the second projection of the embedded
operations returns. -/
def applyOp (c : SharedDataContainer) : Op → SharedDataContainer
  | .readerLockOp p => (ReaderLock c p).2
  | .readerUnlockOp p h => (ReaderUnlock c p h).2
  | .readerResetOp p => ReaderReset c p
  | .writerPublishOp m => (WriterUpdateMessage c m).2
  | .writerResetOp => WriterReset c

/-- Validity of an operation's arguments for `N` processes: process indices
come from `[0, N)` (the stated precondition of the reader operations). -/
def OpValid (N : Nat) : Op → Prop
  | .readerLockOp p => p < N
  | .readerUnlockOp p _ => p < N
  | .readerResetOp p => p < N
  | .writerPublishOp _ => True
  | .writerResetOp => True

/-- Containers reachable from the all-zero initial state by single-threaded
sequences of the container's operations with valid process indices. -/
inductive Reachable (N : Nat) : SharedDataContainer → Prop
  | init : Reachable N (initContainer N)
  | step {c : SharedDataContainer} (op : Op) :
      Reachable N c → OpValid N op → Reachable N (applyOp c op)

/-- One round of the retained-handles scenario (the repository test "Lock
several slots by the same process"): one `WriterUpdateMessage` followed by one
`ReaderLock` by process `p`; `none` when either call does not succeed. -/
def pubLockRound (p : Nat) (c : SharedDataContainer) (m : Message) :
    Option (SharedDataContainer × Nat) :=
  match WriterUpdateMessage c m with
  | (WResult.ok, c1) =>
    match ReaderLock c1 p with
    | (RLResult.ok h, c2) => some (c2, h)
    | _ => none
  | _ => none

/-- The whole retained-handles scenario: publish-then-lock for each message of
`ms`, collecting the handles; `none` when any round does not succeed. -/
def runRounds (p : Nat) :
    SharedDataContainer → List Message → Option (SharedDataContainer × List Nat)
  | c, [] => some (c, [])
  | c, m :: ms =>
    match pubLockRound p c m with
    | none => none
    | some (c1, h) =>
      match runRounds p c1 ms with
      | none => none
      | some (c2, hs) => some (c2, h :: hs)

/-- The argument check of `main` in `src/main.cpp`: returns `true` when the
process exits with status 1. `none` models a missing positional argument
(`argc < 2`); `some ix` the value parsed by `std::stoi`. The C++ comparison
`process_index > Configuration::number_of_processes` compares an `int` with an
`unsigned`, so the `int` operand is converted to `unsigned` first (hence the
reduction of `ix` modulo `2 ^ 32`). -/
def mainArgCheckFails (N : Nat) (arg : Option Int) : Bool :=
  match arg with
  | none => true
  | some process_index =>
    decide ((process_index % (2 ^ 32 : Int)).toNat > N)

/-- The inductive invariant of the container: the slot array keeps its length,
the current id stays in range, and a nonzero current id always points at a
slot that still carries the writer mark. -/
def ContainerInv (N : Nat) (c : SharedDataContainer) : Prop :=
  c.slots.length = N + 1 ∧ c.current_slot_id_ ≤ N + 1 ∧
  (c.current_slot_id_ ≠ 0 →
    (c.slots.getD (c.current_slot_id_ - 1) default).used_by &&&
      used_by_writer ≠ 0)

/-! ### List access helper lemmas -/

/-- Reading back the updated position of `List.set`. -/
lemma getD_set_self (l : List Slot) (n : Nat) (s : Slot) (h : n < l.length) :
    (l.set n s).getD n default = s := by
  induction l generalizing n with
  | nil => simp at h
  | cons a t ih =>
    cases n with
    | zero => rfl
    | succ m => exact ih m (by simpa using h)

/-- `List.set` leaves every other position unchanged. -/
lemma getD_set_ne (l : List Slot) (n i : Nat) (s : Slot) (h : i ≠ n) :
    (l.set n s).getD i default = l.getD i default := by
  induction l generalizing n i with
  | nil => rfl
  | cons a t ih =>
    cases n with
    | zero =>
      cases i with
      | zero => exact absurd rfl h
      | succ j => rfl
    | succ m =>
      cases i with
      | zero => rfl
      | succ j => exact ih m j (fun hc => h (by omega))

/-- Reading a mapped list at an in-range position. -/
lemma getD_map_lt (f : Slot → Slot) (l : List Slot) (i : Nat) (h : i < l.length) :
    (l.map f).getD i default = f (l.getD i default) := by
  induction l generalizing i with
  | nil => simp at h
  | cons a t ih =>
    cases i with
    | zero => rfl
    | succ j => exact ih j (by simpa using h)

/-! ### Bit-level helper lemmas -/

/-- A word ANDed with a single bit is nonzero exactly when that bit is set. -/
lemma and_two_pow_ne_zero_iff (v q : Nat) :
    v &&& 2 ^ q ≠ 0 ↔ v.testBit q = true := by
  rw [Nat.and_two_pow]
  cases h : v.testBit q <;> simp [Nat.pos_iff_ne_zero, Nat.pos_pow_of_pos]

/-- Bits of the 32-bit complement of a single bit position `q < 32`. -/
lemma testBit_not32_two_pow (q j : Nat) (hq : q < 32) :
    (not32 (2 ^ q)).testBit j = (decide (j < 32) && !(decide (j = q))) := by
  rw [not32, Nat.testBit_xor, Nat.testBit_two_pow_sub_one, Nat.testBit_two_pow]
  by_cases hj : j < 32
  · by_cases hjq : j = q
    · subst hjq; simp [hq]
    · have h2 : ¬ q = j := fun h => hjq h.symm
      simp [hj, hjq, h2]
  · have h1 : q ≠ j := by omega
    simp [hj, h1]

/-- Clearing bit `q` leaves every other bit below 32 unchanged. -/
lemma testBit_and_not32_ne (v q j : Nat) (hq : q < 32) (hj : j < 32) (hne : j ≠ q) :
    (v &&& not32 (2 ^ q)).testBit j = v.testBit j := by
  rw [Nat.testBit_and, testBit_not32_two_pow q j hq]
  simp [hj, hne]

/-- Clearing bit `q` clears bit `q`. -/
lemma testBit_and_not32_self (v q : Nat) (hq : q < 32) :
    (v &&& not32 (2 ^ q)).testBit q = false := by
  rw [Nat.testBit_and, testBit_not32_two_pow q q hq]
  simp

/-- Setting bit `b` leaves every other bit unchanged. -/
lemma testBit_or_two_pow_ne (v b j : Nat) (hne : b ≠ j) :
    (v ||| 2 ^ b).testBit j = v.testBit j := by
  rw [Nat.testBit_or, Nat.testBit_two_pow_of_ne hne]
  simp

/-- Setting bit `b` sets bit `b`. -/
lemma testBit_or_two_pow_self (v b : Nat) :
    (v ||| 2 ^ b).testBit b = true := by
  rw [Nat.testBit_or, Nat.testBit_two_pow_self]
  simp

/-! ### Free-slot scan helper lemmas -/

/-- The scan fails exactly when every slot's state word is nonzero. -/
lemma findFreeSlot_eq_none_iff (l : List Slot) :
    findFreeSlot l = none ↔
      ∀ i, i < l.length → (l.getD i default).used_by ≠ 0 := by
  induction l with
  | nil => simp [findFreeSlot]
  | cons s t ih =>
    by_cases hs : s.used_by = 0
    · simp only [findFreeSlot, if_pos hs]
      constructor
      · intro h; cases h
      · intro h
        exact absurd hs (by simpa using h 0 (by simp))
    · simp only [findFreeSlot, if_neg hs]
      constructor
      · intro h i hi
        cases i with
        | zero => simpa using hs
        | succ j =>
          have ht : findFreeSlot t = none := by
            cases hft : findFreeSlot t with
            | none => rfl
            | some m => rw [hft] at h; simp at h
          exact (ih.mp ht) j (by simpa using hi)
      · intro h
        have ht : findFreeSlot t = none :=
          ih.mpr (fun j hj => h (j + 1) (by simpa using hj))
        rw [ht]; rfl

/-- What a successful scan yields: an in-range slot with zero state word,
before which every slot has a nonzero state word. -/
lemma findFreeSlot_spec (l : List Slot) (n : Nat) (h : findFreeSlot l = some n) :
    n < l.length ∧ (l.getD n default).used_by = 0 ∧
      ∀ i, i < n → (l.getD i default).used_by ≠ 0 := by
  induction l generalizing n with
  | nil => cases h
  | cons s t ih =>
    by_cases hs : s.used_by = 0
    · simp only [findFreeSlot, if_pos hs] at h
      cases h
      exact ⟨by simp, hs, by omega⟩
    · simp only [findFreeSlot, if_neg hs] at h
      cases hft : findFreeSlot t with
      | none => rw [hft] at h; cases h
      | some m =>
        rw [hft] at h
        have h4 : m + 1 = n := by simpa using h
        subst h4
        obtain ⟨h1, h2, h3⟩ := ih m hft
        refine ⟨by simpa using h1, h2, ?_⟩
        intro i hi
        cases i with
        | zero => exact hs
        | succ j => exact h3 j (by omega)

/-! ### Operation-level characterization lemmas -/

/-- `orBits` preserves the array length. -/
lemma length_orBits (l : List Slot) (n b : Nat) :
    (orBits l n b).length = l.length := by
  simp [orBits]

/-- `andBits` preserves the array length. -/
lemma length_andBits (l : List Slot) (n b : Nat) :
    (andBits l n b).length = l.length := by
  simp [andBits]

/-- `setMessage` preserves the array length. -/
lemma length_setMessage (l : List Slot) (n : Nat) (m : Message) :
    (setMessage l n m).length = l.length := by
  simp [setMessage]

/-- Reading `orBits` at the updated position. -/
lemma getD_orBits_self (l : List Slot) (n b : Nat) (h : n < l.length) :
    (orBits l n b).getD n default =
      { l.getD n default with used_by := (l.getD n default).used_by ||| b } := by
  exact getD_set_self l n _ h

/-- Reading `orBits` at any other position. -/
lemma getD_orBits_ne (l : List Slot) (n b i : Nat) (h : i ≠ n) :
    (orBits l n b).getD i default = l.getD i default := by
  exact getD_set_ne l n i _ h

/-- Reading `andBits` at the updated position. -/
lemma getD_andBits_self (l : List Slot) (n b : Nat) (h : n < l.length) :
    (andBits l n b).getD n default =
      { l.getD n default with used_by := (l.getD n default).used_by &&& b } := by
  exact getD_set_self l n _ h

/-- Reading `andBits` at any other position. -/
lemma getD_andBits_ne (l : List Slot) (n b i : Nat) (h : i ≠ n) :
    (andBits l n b).getD i default = l.getD i default := by
  exact getD_set_ne l n i _ h

/-- Reading `setMessage` at the updated position. -/
lemma getD_setMessage_self (l : List Slot) (n : Nat) (m : Message) (h : n < l.length) :
    (setMessage l n m).getD n default =
      { l.getD n default with message := m } := by
  exact getD_set_self l n _ h

/-- Reading `setMessage` at any other position. -/
lemma getD_setMessage_ne (l : List Slot) (n i : Nat) (m : Message) (h : i ≠ n) :
    (setMessage l n m).getD i default = l.getD i default := by
  exact getD_set_ne l n i _ h


/-- Characterization of a successful `ReaderLock`: the branch conditions that
led to the `ok` return and the exact successor state. -/
lemma ReaderLock_ok_spec (c : SharedDataContainer) (q h : Nat)
    (c2 : SharedDataContainer) (heq : ReaderLock c q = (.ok h, c2)) :
    c.current_slot_id_ ≠ 0 ∧ h = c.current_slot_id_ - 1 ∧
      (c.slots.getD h default).used_by &&& used_by_writer ≠ 0 ∧
      (c.slots.getD h default).used_by &&& 2 ^ q = 0 ∧
      c2 = { c with slots := orBits c.slots h (2 ^ q) } := by
  by_cases h0 : c.current_slot_id_ = 0
  · rw [ReaderLock, if_pos h0] at heq
    exact absurd (congrArg Prod.fst heq) (by simp)
  · by_cases hw : (c.slots.getD (c.current_slot_id_ - 1) default).used_by &&&
        used_by_writer = 0
    · rw [ReaderLock, if_neg h0] at heq
      simp only [if_pos hw] at heq
      exact absurd (congrArg Prod.fst heq) (by simp)
    · by_cases hd : (c.slots.getD (c.current_slot_id_ - 1) default).used_by &&&
          2 ^ q ≠ 0
      · rw [ReaderLock, if_neg h0] at heq
        simp only [if_neg hw, if_pos hd] at heq
        exact absurd (congrArg Prod.fst heq) (by simp)
      · rw [ReaderLock, if_neg h0] at heq
        simp only [if_neg hw, if_neg hd] at heq
        have h1 := congrArg Prod.fst heq
        have h2 := congrArg Prod.snd heq
        simp only [Prod.fst, Prod.snd] at h1 h2
        have h3 : c.current_slot_id_ - 1 = h := by
          cases h1; rfl
        refine ⟨h0, h3.symm, ?_, ?_, ?_⟩
        · rw [← h3]; exact hw
        · rw [← h3]; simpa using hd
        · rw [← h2, ← h3]

/-- Master description of a successful `WriterUpdateMessage` when the scan
found slot `n`: the call returns `ok`; the new current id is `n + 1`; slot `n`
holds the new payload; every slot other than `n` and the previously current
one is untouched; the previously current slot (when it exists, differs from
`n` and is in range) only has the writer mark ANDed out; and in the degenerate
case where the previously current slot is `n` itself, the mark ORed in is
ANDed straight back out. -/
lemma WriterUpdateMessage_spec (c : SharedDataContainer) (m : Message) (n : Nat)
    (hn : findFreeSlot c.slots = some n) :
    (WriterUpdateMessage c m).1 = .ok ∧
    (WriterUpdateMessage c m).2.current_slot_id_ = n + 1 ∧
    (WriterUpdateMessage c m).2.slots.length = c.slots.length ∧
    (∀ i, i ≠ n → (c.current_slot_id_ = 0 ∨ i ≠ c.current_slot_id_ - 1) →
      (WriterUpdateMessage c m).2.slots.getD i default = c.slots.getD i default) ∧
    ((WriterUpdateMessage c m).2.slots.getD n default).message = m ∧
    (c.current_slot_id_ = 0 ∨ c.current_slot_id_ - 1 ≠ n →
      ((WriterUpdateMessage c m).2.slots.getD n default).used_by =
        (c.slots.getD n default).used_by ||| used_by_writer) ∧
    (c.current_slot_id_ ≠ 0 → c.current_slot_id_ - 1 ≠ n →
        c.current_slot_id_ - 1 < c.slots.length →
      ((WriterUpdateMessage c m).2.slots.getD (c.current_slot_id_ - 1) default).used_by =
        (c.slots.getD (c.current_slot_id_ - 1) default).used_by &&& not32 used_by_writer ∧
      ((WriterUpdateMessage c m).2.slots.getD (c.current_slot_id_ - 1) default).message =
        (c.slots.getD (c.current_slot_id_ - 1) default).message) ∧
    (c.current_slot_id_ ≠ 0 → c.current_slot_id_ - 1 = n →
      ((WriterUpdateMessage c m).2.slots.getD n default).used_by =
        ((c.slots.getD n default).used_by ||| used_by_writer) &&& not32 used_by_writer) := by
  obtain ⟨hlt, hfree, _⟩ := findFreeSlot_spec c.slots n hn
  have hlen2 : (orBits (setMessage c.slots n m) n used_by_writer).length =
      c.slots.length := by
    rw [length_orBits, length_setMessage]
  have hgn : (orBits (setMessage c.slots n m) n used_by_writer).getD n default =
      { c.slots.getD n default with
          message := m,
          used_by := (c.slots.getD n default).used_by ||| used_by_writer } := by
    rw [getD_orBits_self _ _ _ (by rw [length_setMessage]; exact hlt),
      getD_setMessage_self _ _ _ hlt]
  have hgne : ∀ i, i ≠ n →
      (orBits (setMessage c.slots n m) n used_by_writer).getD i default =
        c.slots.getD i default := by
    intro i hin
    rw [getD_orBits_ne _ _ _ _ hin, getD_setMessage_ne _ _ _ _ hin]
  by_cases h0 : c.current_slot_id_ = 0
  · have hW : WriterUpdateMessage c m =
        (.ok, { current_slot_id_ := n + 1,
                slots := orBits (setMessage c.slots n m) n used_by_writer }) := by
      rw [WriterUpdateMessage, hn]
      simp only [gt_iff_lt]
      rw [if_neg (by omega)]
    refine ⟨by rw [hW], by rw [hW], ?_, ?_, ?_, ?_, ?_, ?_⟩
    · rw [hW]
      exact hlen2
    · intro i hin _
      rw [hW]
      exact hgne i hin
    · rw [hW]
      show ((orBits (setMessage c.slots n m) n used_by_writer).getD n
        default).message = m
      rw [hgn]
    · intro _
      rw [hW]
      show ((orBits (setMessage c.slots n m) n used_by_writer).getD n
        default).used_by = (c.slots.getD n default).used_by ||| used_by_writer
      rw [hgn]
    · intro hne
      exact absurd h0 hne
    · intro hne
      exact absurd h0 hne
  · have hpos : c.current_slot_id_ > 0 := Nat.pos_of_ne_zero h0
    have hW : WriterUpdateMessage c m =
        (.ok, { current_slot_id_ := n + 1,
                slots := andBits (orBits (setMessage c.slots n m) n used_by_writer)
                  (c.current_slot_id_ - 1) (not32 used_by_writer) }) := by
      rw [WriterUpdateMessage, hn]
      simp only [gt_iff_lt]
      rw [if_pos hpos]
    refine ⟨by rw [hW], by rw [hW], ?_, ?_, ?_, ?_, ?_, ?_⟩
    · rw [hW]
      show (andBits (orBits (setMessage c.slots n m) n used_by_writer)
        (c.current_slot_id_ - 1) (not32 used_by_writer)).length = c.slots.length
      rw [length_andBits]
      exact hlen2
    · intro i hin hio
      rcases hio with hio | hio
      · exact absurd hio h0
      · rw [hW]
        show (andBits (orBits (setMessage c.slots n m) n used_by_writer)
          (c.current_slot_id_ - 1) (not32 used_by_writer)).getD i default =
            c.slots.getD i default
        rw [getD_andBits_ne _ _ _ _ hio]
        exact hgne i hin
    · rw [hW]
      show ((andBits (orBits (setMessage c.slots n m) n used_by_writer)
        (c.current_slot_id_ - 1) (not32 used_by_writer)).getD n default).message = m
      by_cases hon : c.current_slot_id_ - 1 = n
      · rw [show n = c.current_slot_id_ - 1 from hon.symm, getD_andBits_self _ _ _
          (by rw [length_orBits, length_setMessage]; omega), show c.current_slot_id_ - 1 = n from hon, hgn]
      · rw [getD_andBits_ne _ _ _ _ (fun hc => hon hc.symm), hgn]
    · intro hor
      rcases hor with hor | hor
      · exact absurd hor h0
      · rw [hW]
        show ((andBits (orBits (setMessage c.slots n m) n used_by_writer)
          (c.current_slot_id_ - 1) (not32 used_by_writer)).getD n default).used_by =
            (c.slots.getD n default).used_by ||| used_by_writer
        rw [getD_andBits_ne _ _ _ _ (fun hc => hor hc.symm), hgn]
    · intro _ hon hrange
      rw [hW]
      show ((andBits (orBits (setMessage c.slots n m) n used_by_writer)
          (c.current_slot_id_ - 1) (not32 used_by_writer)).getD
            (c.current_slot_id_ - 1) default).used_by =
          (c.slots.getD (c.current_slot_id_ - 1) default).used_by &&&
            not32 used_by_writer ∧
        ((andBits (orBits (setMessage c.slots n m) n used_by_writer)
          (c.current_slot_id_ - 1) (not32 used_by_writer)).getD
            (c.current_slot_id_ - 1) default).message =
          (c.slots.getD (c.current_slot_id_ - 1) default).message
      rw [getD_andBits_self _ _ _ (by rw [hlen2]; exact hrange), hgne _ hon]
      exact ⟨rfl, rfl⟩
    · intro _ hon
      rw [hW]
      show ((andBits (orBits (setMessage c.slots n m) n used_by_writer)
        (c.current_slot_id_ - 1) (not32 used_by_writer)).getD n default).used_by =
          ((c.slots.getD n default).used_by ||| used_by_writer) &&& not32 used_by_writer
      rw [show n = c.current_slot_id_ - 1 from hon.symm, getD_andBits_self _ _ _
        (by rw [length_orBits, length_setMessage]; omega), show c.current_slot_id_ - 1 = n from hon, hgn]

/-- A failed scan makes `WriterUpdateMessage` throw and leave the state as is. -/
lemma WriterUpdateMessage_none (c : SharedDataContainer) (m : Message)
    (h : findFreeSlot c.slots = none) :
    WriterUpdateMessage c m = (.noFreeSlot, c) := by
  rw [WriterUpdateMessage, h]

/-- `writerResetSlots` preserves the array length. -/
lemma length_writerResetSlots (cur1 : Int) (l : List Slot) :
    ∀ i0, (writerResetSlots cur1 i0 l).length = l.length := by
  induction l with
  | nil => intro i0; rfl
  | cons s t ih =>
    intro i0
    show (writerResetSlot cur1 i0 s :: writerResetSlots cur1 (i0 + 1) t).length
      = t.length + 1
    rw [List.length_cons, ih (i0 + 1)]

/-- Pointwise description of `writerResetSlots`. -/
lemma getD_writerResetSlots (cur1 : Int) (l : List Slot) :
    ∀ i0 i, i < l.length →
      (writerResetSlots cur1 i0 l).getD i default =
        writerResetSlot cur1 (i0 + i) (l.getD i default) := by
  induction l with
  | nil => intro i0 i hi; simp at hi
  | cons s t ih =>
    intro i0 i hi
    cases i with
    | zero => rfl
    | succ j =>
      show (writerResetSlots cur1 (i0 + 1) t).getD j default =
        writerResetSlot cur1 (i0 + (j + 1)) (t.getD j default)
      rw [ih (i0 + 1) j (by simpa using hi)]
      congr 1
      omega

/-- Length of the `ReaderReset` result. -/
lemma length_ReaderReset (c : SharedDataContainer) (p : Nat) :
    (ReaderReset c p).slots.length = c.slots.length := by
  simp [ReaderReset]

/-- Pointwise description of `ReaderReset`. -/
lemma getD_ReaderReset (c : SharedDataContainer) (p i : Nat) (h : i < c.slots.length) :
    (ReaderReset c p).slots.getD i default =
      readerResetSlot p (c.slots.getD i default) := by
  exact getD_map_lt _ _ _ h

/-- Out-of-range reads of the slot array yield the all-zero default slot. -/
lemma getD_out_of_range (l : List Slot) (i : Nat) (h : l.length ≤ i) :
    l.getD i default = default := by
  induction l generalizing i with
  | nil => rfl
  | cons s t ih =>
    cases i with
    | zero => simp at h
    | succ j => exact ih j (by simpa using h)

/-! ### Claim theorems -/

/-- C1: for every process index `p` in `[0, N)` and every container state in
which `current_slot_id` is nonzero and the slot at `current_slot_id - 1` has
both the writer-owned bit and reader `p`'s pin bit set, `ReaderLock p` fails
with the double-lock error and leaves the container unchanged. -/
theorem C1_reader_lock_double_lock (N p : Nat) (c : SharedDataContainer)
    (hN : N ≤ 31) (hp : p < N)
    (hne : c.current_slot_id_ ≠ 0)
    (hw : (c.slots.getD (c.current_slot_id_ - 1) default).used_by &&&
      used_by_writer ≠ 0)
    (hpin : (c.slots.getD (c.current_slot_id_ - 1) default).used_by &&&
      2 ^ p ≠ 0) :
    ReaderLock c p = (.errDoubleLock, c) := by
  rw [ReaderLock, if_neg hne]
  simp only [if_neg hw, if_pos hpin]

/-- Witness for C1 at a concrete state: `N = 3`, slot 0 current with writer
mark and process 0's pin already set. -/
theorem C1_witness :
    ReaderLock ⟨1, [⟨2 ^ 31 + 1, ⟨5⟩⟩, ⟨0, ⟨0⟩⟩, ⟨0, ⟨0⟩⟩, ⟨0, ⟨0⟩⟩]⟩ 0 =
      (.errDoubleLock, ⟨1, [⟨2 ^ 31 + 1, ⟨5⟩⟩, ⟨0, ⟨0⟩⟩, ⟨0, ⟨0⟩⟩, ⟨0, ⟨0⟩⟩]⟩) :=
  C1_reader_lock_double_lock 3 0 _ (by decide) (by decide) (by decide)
    (by decide) (by decide)

/-- C5: `WriterUpdateMessage` fails with the no-free-slot error exactly when
every slot's state word is nonzero, and on this failure the whole container
(every state word, every payload and the current id) is left unchanged. -/
theorem C5_no_free_slot_iff_all_used (c : SharedDataContainer) (m : Message) :
    ((WriterUpdateMessage c m).1 = .noFreeSlot ↔
      ∀ i, i < c.slots.length → (c.slots.getD i default).used_by ≠ 0) ∧
    ((WriterUpdateMessage c m).1 = .noFreeSlot → (WriterUpdateMessage c m).2 = c) := by
  cases hf : findFreeSlot c.slots with
  | none =>
    rw [WriterUpdateMessage_none c m hf]
    exact ⟨⟨fun _ => (findFreeSlot_eq_none_iff c.slots).mp hf, fun _ => rfl⟩,
      fun _ => rfl⟩
  | some n =>
    have h1 := (WriterUpdateMessage_spec c m n hf).1
    refine ⟨⟨fun h => ?_, fun hall => ?_⟩, fun h => ?_⟩
    · rw [h1] at h
      exact WResult.noConfusion h
    · have h2 : findFreeSlot c.slots = none :=
        (findFreeSlot_eq_none_iff c.slots).mpr hall
      rw [hf] at h2
      exact Option.noConfusion h2
    · rw [h1] at h
      exact WResult.noConfusion h

/-- Witness for C5 at a concrete full container: both slots carry a nonzero
state word and the publish fails. -/
theorem C5_witness :
    (WriterUpdateMessage ⟨2, [⟨1, ⟨7⟩⟩, ⟨2 ^ 31, ⟨9⟩⟩]⟩ ⟨5⟩).1 = .noFreeSlot :=
  (C5_no_free_slot_iff_all_used ⟨2, [⟨1, ⟨7⟩⟩, ⟨2 ^ 31, ⟨9⟩⟩]⟩ ⟨5⟩).1.mpr (by decide)

/-- C6: `ReaderUnlock p h` fails with the not-locked error when bit `p` is not
set on slot `h`, and otherwise succeeds, clears exactly bit `p` of slot `h`
and leaves every other bit of every slot (and every payload and the current
id) unchanged. The hypotheses never mention how `h` was obtained, so success
does not depend on whether `p` got `h` from its own `ReaderLock` call. -/
theorem C6_reader_unlock_spec (c : SharedDataContainer) (p h : Nat)
    (hp : p < 31) (hh : h < c.slots.length)
    (hword : (c.slots.getD h default).used_by < 2 ^ 32) :
    ((c.slots.getD h default).used_by &&& 2 ^ p = 0 →
      ReaderUnlock c p h = (.errNotLocked, c)) ∧
    ((c.slots.getD h default).used_by &&& 2 ^ p ≠ 0 →
      (ReaderUnlock c p h).1 = .ok ∧
      (ReaderUnlock c p h).2.current_slot_id_ = c.current_slot_id_ ∧
      (ReaderUnlock c p h).2.slots.length = c.slots.length ∧
      (∀ i, i ≠ h →
        (ReaderUnlock c p h).2.slots.getD i default = c.slots.getD i default) ∧
      ((ReaderUnlock c p h).2.slots.getD h default).message =
        (c.slots.getD h default).message ∧
      ((ReaderUnlock c p h).2.slots.getD h default).used_by.testBit p = false ∧
      (∀ q, q ≠ p →
        ((ReaderUnlock c p h).2.slots.getD h default).used_by.testBit q =
          (c.slots.getD h default).used_by.testBit q)) := by
  constructor
  · intro hz
    rw [ReaderUnlock, if_pos hz]
  · intro hnz
    have hU : ReaderUnlock c p h =
        (.ok, { c with slots := andBits c.slots h (not32 (2 ^ p)) }) := by
      rw [ReaderUnlock, if_neg hnz]
    rw [hU]
    refine ⟨rfl, rfl, ?_, ?_, ?_, ?_, ?_⟩
    · show (andBits c.slots h (not32 (2 ^ p))).length = c.slots.length
      rw [length_andBits]
    · intro i hih
      exact getD_andBits_ne _ _ _ _ hih
    · show ((andBits c.slots h (not32 (2 ^ p))).getD h default).message = _
      rw [getD_andBits_self _ _ _ hh]
    · show ((andBits c.slots h (not32 (2 ^ p))).getD h default).used_by.testBit p
        = false
      rw [getD_andBits_self _ _ _ hh]
      exact testBit_and_not32_self _ p (by omega)
    · intro q hq
      show ((andBits c.slots h (not32 (2 ^ p))).getD h default).used_by.testBit q
        = (c.slots.getD h default).used_by.testBit q
      rw [getD_andBits_self _ _ _ hh]
      by_cases hq32 : q < 32
      · exact testBit_and_not32_ne _ p q (by omega) hq32 hq
      · have hhi : (c.slots.getD h default).used_by.testBit q = false :=
          Nat.testBit_lt_two_pow (lt_of_lt_of_le hword
            (Nat.pow_le_pow_right (by omega) (by omega)))
        have hlo : ((c.slots.getD h default).used_by &&&
            not32 (2 ^ p)).testBit q = false :=
          Nat.testBit_lt_two_pow (lt_of_le_of_lt Nat.and_le_left
            (lt_of_lt_of_le hword (Nat.pow_le_pow_right (by omega) (by omega))))
        rw [hhi, hlo]

/-- Witness for C6: process 1 unlocks a slot on which its bit is set (here a
pin set by a different lock call), and the failure case for a clear bit. -/
theorem C6_witness :
    ReaderUnlock ⟨1, [⟨2 ^ 31 + 2, ⟨5⟩⟩, ⟨0, ⟨0⟩⟩]⟩ 0 0 =
      (.errNotLocked, ⟨1, [⟨2 ^ 31 + 2, ⟨5⟩⟩, ⟨0, ⟨0⟩⟩]⟩) :=
  (C6_reader_unlock_spec ⟨1, [⟨2 ^ 31 + 2, ⟨5⟩⟩, ⟨0, ⟨0⟩⟩]⟩ 0 0 (by decide)
    (by decide) (by decide)).1 (by decide)

/-- C7: `WriterReset` clears the writer-owned bit of every slot whose index
differs from `current_slot_id - 1`, leaves the slot at `current_slot_id - 1`
(when the id is nonzero) entirely unchanged, and changes no reader-pin bit
(bits below 31) and no payload of any slot. -/
theorem C7_writer_reset_spec (c : SharedDataContainer) :
    (WriterReset c).current_slot_id_ = c.current_slot_id_ ∧
    (WriterReset c).slots.length = c.slots.length ∧
    ∀ i, i < c.slots.length →
      ((c.current_slot_id_ ≠ 0 ∧ i = c.current_slot_id_ - 1 →
        (WriterReset c).slots.getD i default = c.slots.getD i default) ∧
       (¬ (c.current_slot_id_ ≠ 0 ∧ i = c.current_slot_id_ - 1) →
        ((WriterReset c).slots.getD i default).used_by.testBit 31 = false) ∧
       ((WriterReset c).slots.getD i default).message =
         (c.slots.getD i default).message ∧
       (∀ q, q < 31 →
         ((WriterReset c).slots.getD i default).used_by.testBit q =
           (c.slots.getD i default).used_by.testBit q)) := by
  refine ⟨rfl, length_writerResetSlots _ _ 0, ?_⟩
  intro i hi
  have hg : (WriterReset c).slots.getD i default =
      writerResetSlot ((c.current_slot_id_ : Int) - 1) i (c.slots.getD i default) := by
    show (writerResetSlots ((c.current_slot_id_ : Int) - 1) 0 c.slots).getD i default = _
    rw [getD_writerResetSlots _ _ 0 i hi, Nat.zero_add]
  rw [hg]
  by_cases hcond : ((i : Int) ≠ (c.current_slot_id_ : Int) - 1 ∧
      (c.slots.getD i default).used_by &&& used_by_writer ≠ 0)
  · rw [writerResetSlot, if_pos hcond]
    refine ⟨?_, ?_, rfl, ?_⟩
    · intro ⟨hne, hieq⟩
      exact absurd (by omega : (i : Int) = (c.current_slot_id_ : Int) - 1) hcond.1
    · intro _
      exact testBit_and_not32_self _ 31 (by omega)
    · intro q hq
      exact testBit_and_not32_ne _ 31 q (by omega) (by omega) (by omega)
  · rw [writerResetSlot, if_neg hcond]
    refine ⟨fun _ => rfl, ?_, rfl, fun _ _ => rfl⟩
    intro hnot
    rcases Decidable.not_and_iff_or_not.mp hcond with hcase | hcase
    · have hieq : (i : Int) = (c.current_slot_id_ : Int) - 1 :=
        Decidable.not_not.mp hcase
      exact absurd ⟨by omega, by omega⟩ hnot
    · have hz := Decidable.not_not.mp hcase
      rw [← Bool.not_eq_true]
      intro htb
      exact absurd hz (by rw [← and_two_pow_ne_zero_iff] at htb; exact htb)

/-- Witness for C7 at a concrete state: a stray writer mark on slot 1 is
cleared while the current slot 0 keeps its word and slot 1's pin survives. -/
theorem C7_witness :
    ((WriterReset ⟨1, [⟨2 ^ 31, ⟨5⟩⟩, ⟨2 ^ 31 + 4, ⟨9⟩⟩]⟩).slots.getD 1
        default).used_by.testBit 31 = false ∧
    ((WriterReset ⟨1, [⟨2 ^ 31, ⟨5⟩⟩, ⟨2 ^ 31 + 4, ⟨9⟩⟩]⟩).slots.getD 1
        default).used_by.testBit 2 =
      ((⟨2 ^ 31 + 4, ⟨9⟩⟩ : Slot)).used_by.testBit 2 ∧
    (WriterReset ⟨1, [⟨2 ^ 31, ⟨5⟩⟩, ⟨2 ^ 31 + 4, ⟨9⟩⟩]⟩).slots.getD 0 default =
      ⟨2 ^ 31, ⟨5⟩⟩ :=
  ⟨((C7_writer_reset_spec ⟨1, [⟨2 ^ 31, ⟨5⟩⟩, ⟨2 ^ 31 + 4, ⟨9⟩⟩]⟩).2.2 1
      (by decide)).2.1 (by decide),
   ((C7_writer_reset_spec ⟨1, [⟨2 ^ 31, ⟨5⟩⟩, ⟨2 ^ 31 + 4, ⟨9⟩⟩]⟩).2.2 1
      (by decide)).2.2.2 2 (by decide),
   ((C7_writer_reset_spec ⟨1, [⟨2 ^ 31, ⟨5⟩⟩, ⟨2 ^ 31 + 4, ⟨9⟩⟩]⟩).2.2 0
      (by decide)).1 (by decide)⟩

/-- Counterexample to C4 as stated: in the state with `current_slot_id = 1`
and slot 0 free, the publish selects slot 0 (the first free slot), succeeds,
but the post-state does NOT have the writer-owned bit set on the selected
slot: the step that clears the mark of the previously current slot `0` undoes
the mark just ORed into the selected slot `0`. -/
theorem C4_counterexample :
    findFreeSlot (⟨1, [⟨0, ⟨0⟩⟩, ⟨2 ^ 31, ⟨1⟩⟩]⟩ :
        SharedDataContainer).slots = some 0 ∧
    (WriterUpdateMessage ⟨1, [⟨0, ⟨0⟩⟩, ⟨2 ^ 31, ⟨1⟩⟩]⟩ ⟨7⟩).1 = .ok ∧
    ¬ (((WriterUpdateMessage ⟨1, [⟨0, ⟨0⟩⟩, ⟨2 ^ 31, ⟨1⟩⟩]⟩ ⟨7⟩).2.slots.getD 0
        default).used_by &&& used_by_writer ≠ 0) := by
  decide

/-- C4 amended: in every container state with at least one free slot that
additionally satisfies the spec's invariant G1 in the weak form "the slot at
`current_slot_id - 1` (when the id is nonzero) has a nonzero state word",
`WriterUpdateMessage m` selects the first slot `n` with a zero state word,
stores `m` into slot `n`'s payload, sets slot `n`'s writer-owned bit, stores
`n + 1` into the current id and, when the previous id `o` was nonzero, clears
the writer-owned bit of slot `o - 1` while leaving that slot's reader-pin bits
unchanged. -/
theorem C4_publish_post_state (c : SharedDataContainer) (m : Message)
    (hfree : ∃ i, i < c.slots.length ∧ (c.slots.getD i default).used_by = 0)
    (hG1 : c.current_slot_id_ ≠ 0 →
      (c.slots.getD (c.current_slot_id_ - 1) default).used_by ≠ 0) :
    ∃ n, n < c.slots.length ∧ (c.slots.getD n default).used_by = 0 ∧
      (∀ i, i < n → (c.slots.getD i default).used_by ≠ 0) ∧
      (WriterUpdateMessage c m).1 = .ok ∧
      (WriterUpdateMessage c m).2.current_slot_id_ = n + 1 ∧
      ((WriterUpdateMessage c m).2.slots.getD n default).message = m ∧
      ((WriterUpdateMessage c m).2.slots.getD n default).used_by &&&
        used_by_writer ≠ 0 ∧
      (c.current_slot_id_ ≠ 0 →
        ((WriterUpdateMessage c m).2.slots.getD (c.current_slot_id_ - 1)
          default).used_by.testBit 31 = false ∧
        (∀ q, q < 31 →
          ((WriterUpdateMessage c m).2.slots.getD (c.current_slot_id_ - 1)
            default).used_by.testBit q =
          (c.slots.getD (c.current_slot_id_ - 1) default).used_by.testBit q)) := by
  cases hf : findFreeSlot c.slots with
  | none =>
    obtain ⟨i, hi, hz⟩ := hfree
    exact absurd hz ((findFreeSlot_eq_none_iff c.slots).mp hf i hi)
  | some n =>
    obtain ⟨hlt, hzero, hfirst⟩ := findFreeSlot_spec c.slots n hf
    obtain ⟨h1, h2, _h3, _h4, h5, h6, h7, _h8⟩ := WriterUpdateMessage_spec c m n hf
    have hrange : c.current_slot_id_ ≠ 0 →
        c.current_slot_id_ - 1 < c.slots.length := by
      intro h0
      by_contra hout
      exact (hG1 h0) (by
        rw [getD_out_of_range c.slots _ (by omega)]
        rfl)
    have hon : c.current_slot_id_ ≠ 0 → c.current_slot_id_ - 1 ≠ n := by
      intro h0 hc
      exact (hG1 h0) (by rw [hc]; exact hzero)
    refine ⟨n, hlt, hzero, hfirst, h1, h2, h5, ?_, ?_⟩
    · have h6a : ((WriterUpdateMessage c m).2.slots.getD n default).used_by =
          (c.slots.getD n default).used_by ||| used_by_writer := by
        by_cases h0 : c.current_slot_id_ = 0
        · exact h6 (Or.inl h0)
        · exact h6 (Or.inr (hon h0))
      rw [h6a]
      show ((c.slots.getD n default).used_by ||| 2 ^ 31) &&& 2 ^ 31 ≠ 0
      rw [and_two_pow_ne_zero_iff]
      exact testBit_or_two_pow_self _ 31
    · intro h0
      obtain ⟨hu, _hm⟩ := h7 h0 (hon h0) (hrange h0)
      rw [hu]
      refine ⟨testBit_and_not32_self _ 31 (by omega), ?_⟩
      intro q hq
      exact testBit_and_not32_ne _ 31 q (by omega) (by omega) (by omega)

/-- Witness for the amended C4: publishing into a two-slot container whose
slot 0 is current and in use; the free slot 1 is selected and marked, and
slot 0's writer mark is cleared with its pin bit 0 preserved. -/
theorem C4_witness :
    ∃ n, n < (⟨1, [⟨2 ^ 31 + 1, ⟨5⟩⟩, ⟨0, ⟨0⟩⟩]⟩ :
        SharedDataContainer).slots.length ∧
      ((⟨1, [⟨2 ^ 31 + 1, ⟨5⟩⟩, ⟨0, ⟨0⟩⟩]⟩ :
        SharedDataContainer).slots.getD n default).used_by = 0 ∧
      (∀ i, i < n → ((⟨1, [⟨2 ^ 31 + 1, ⟨5⟩⟩, ⟨0, ⟨0⟩⟩]⟩ :
        SharedDataContainer).slots.getD i default).used_by ≠ 0) ∧
      (WriterUpdateMessage ⟨1, [⟨2 ^ 31 + 1, ⟨5⟩⟩, ⟨0, ⟨0⟩⟩]⟩ ⟨9⟩).1 = .ok ∧
      (WriterUpdateMessage ⟨1, [⟨2 ^ 31 + 1, ⟨5⟩⟩, ⟨0, ⟨0⟩⟩]⟩
        ⟨9⟩).2.current_slot_id_ = n + 1 ∧
      ((WriterUpdateMessage ⟨1, [⟨2 ^ 31 + 1, ⟨5⟩⟩, ⟨0, ⟨0⟩⟩]⟩
        ⟨9⟩).2.slots.getD n default).message = ⟨9⟩ ∧
      ((WriterUpdateMessage ⟨1, [⟨2 ^ 31 + 1, ⟨5⟩⟩, ⟨0, ⟨0⟩⟩]⟩
        ⟨9⟩).2.slots.getD n default).used_by &&& used_by_writer ≠ 0 ∧
      ((⟨1, [⟨2 ^ 31 + 1, ⟨5⟩⟩, ⟨0, ⟨0⟩⟩]⟩ :
          SharedDataContainer).current_slot_id_ ≠ 0 →
        ((WriterUpdateMessage ⟨1, [⟨2 ^ 31 + 1, ⟨5⟩⟩, ⟨0, ⟨0⟩⟩]⟩
          ⟨9⟩).2.slots.getD 0 default).used_by.testBit 31 = false ∧
        (∀ q, q < 31 →
          ((WriterUpdateMessage ⟨1, [⟨2 ^ 31 + 1, ⟨5⟩⟩, ⟨0, ⟨0⟩⟩]⟩
            ⟨9⟩).2.slots.getD 0 default).used_by.testBit q =
          ((⟨1, [⟨2 ^ 31 + 1, ⟨5⟩⟩, ⟨0, ⟨0⟩⟩]⟩ :
            SharedDataContainer).slots.getD 0 default).used_by.testBit q)) :=
  C4_publish_post_state ⟨1, [⟨2 ^ 31 + 1, ⟨5⟩⟩, ⟨0, ⟨0⟩⟩]⟩ ⟨9⟩
    ⟨1, by decide, by decide⟩ (by decide)

/-- C3: with `N - 1` distinct processes each holding exactly one pin on a
distinct slot, the current slot carrying the writer mark, and hence exactly
one slot free, two consecutive publishes both succeed: the first claims the
free slot and frees the previously current one, which the second claims. -/
theorem C3_two_publishes_succeed (N : Nat) (c : SharedDataContainer)
    (j k : Nat) (owner : Nat → Nat) (m1 m2 : Message)
    (hN1 : 1 ≤ N) (hN31 : N ≤ 31)
    (hlen : c.slots.length = N + 1)
    (hj : j < N + 1) (hk : k < N + 1) (hjk : j ≠ k)
    (hcur : c.current_slot_id_ = j + 1)
    (hwriter : (c.slots.getD j default).used_by = used_by_writer)
    (hfreek : (c.slots.getD k default).used_by = 0)
    (hpins : ∀ i, i < N + 1 → i ≠ j → i ≠ k →
      owner i < N ∧ (c.slots.getD i default).used_by = 2 ^ owner i)
    (hdistinct : ∀ i i2, i < N + 1 → i2 < N + 1 → i ≠ j → i ≠ k → i2 ≠ j →
      i2 ≠ k → owner i = owner i2 → i = i2) :
    (WriterUpdateMessage c m1).1 = .ok ∧
    (WriterUpdateMessage (WriterUpdateMessage c m1).2 m2).1 = .ok := by
  cases hf : findFreeSlot c.slots with
  | none =>
    exact absurd hfreek
      ((findFreeSlot_eq_none_iff c.slots).mp hf k (by omega))
  | some n =>
    obtain ⟨hnlt, hnzero, _⟩ := findFreeSlot_spec c.slots n hf
    obtain ⟨h1, h2, h3, _h4, _h5, _h6, h7, _h8⟩ := WriterUpdateMessage_spec c m1 n hf
    have hjn : j ≠ n := by
      intro hc
      rw [hc] at hwriter
      rw [hwriter] at hnzero
      exact absurd hnzero (by decide)
    have hcur1 : c.current_slot_id_ ≠ 0 := by omega
    have hsub : c.current_slot_id_ - 1 = j := by omega
    have hjfree : ((WriterUpdateMessage c m1).2.slots.getD j default).used_by = 0 := by
      have := (h7 hcur1 (by omega) (by omega)).1
      rw [hsub] at this
      rw [this, hwriter]
      decide
    refine ⟨h1, ?_⟩
    cases hf2 : findFreeSlot (WriterUpdateMessage c m1).2.slots with
    | none =>
      exact absurd hjfree
        ((findFreeSlot_eq_none_iff _).mp hf2 j (by omega))
    | some n2 =>
      exact (WriterUpdateMessage_spec (WriterUpdateMessage c m1).2 m2 n2 hf2).1

/-- Witness for C3 at `N = 3`: slots 0 and 1 pinned by processes 0 and 1,
slot 2 current with the writer mark, slot 3 free. -/
theorem C3_witness :
    (WriterUpdateMessage
      ⟨3, [⟨1, ⟨0⟩⟩, ⟨2, ⟨1⟩⟩, ⟨2 ^ 31, ⟨2⟩⟩, ⟨0, ⟨0⟩⟩]⟩ ⟨7⟩).1 = .ok ∧
    (WriterUpdateMessage (WriterUpdateMessage
      ⟨3, [⟨1, ⟨0⟩⟩, ⟨2, ⟨1⟩⟩, ⟨2 ^ 31, ⟨2⟩⟩, ⟨0, ⟨0⟩⟩]⟩ ⟨7⟩).2 ⟨8⟩).1 = .ok :=
  C3_two_publishes_succeed 3 ⟨3, [⟨1, ⟨0⟩⟩, ⟨2, ⟨1⟩⟩, ⟨2 ^ 31, ⟨2⟩⟩, ⟨0, ⟨0⟩⟩]⟩
    2 3 (fun i => i) ⟨7⟩ ⟨8⟩ (by decide) (by decide) (by decide) (by decide)
    (by decide) (by decide) (by decide) (by decide) (by decide)
    (by decide) (fun _ _ _ _ _ _ _ _ h => h)

/-- The all-zero initial state satisfies the invariant. -/
lemma ContainerInv_init (N : Nat) : ContainerInv N (initContainer N) :=
  ⟨by simp [initContainer], by simp [initContainer], fun h => absurd rfl h⟩

/-- Every valid operation preserves the invariant. -/
lemma ContainerInv_applyOp (N : Nat) (hN : N ≤ 31) (c : SharedDataContainer) (op : Op)
    (hv : OpValid N op) (h : ContainerInv N c) : ContainerInv N (applyOp c op) := by
  obtain ⟨hlen, hcur, hbit⟩ := h
  cases op with
  | readerLockOp p =>
    show ContainerInv N (ReaderLock c p).2
    by_cases h0 : c.current_slot_id_ = 0
    · rw [ReaderLock, if_pos h0]
      exact ⟨hlen, hcur, hbit⟩
    · by_cases hw : (c.slots.getD (c.current_slot_id_ - 1) default).used_by &&&
          used_by_writer = 0
      · rw [ReaderLock, if_neg h0]
        simp only [if_pos hw]
        exact ⟨hlen, hcur, hbit⟩
      · by_cases hd : (c.slots.getD (c.current_slot_id_ - 1) default).used_by &&&
            2 ^ p ≠ 0
        · rw [ReaderLock, if_neg h0]
          simp only [if_neg hw, if_pos hd]
          exact ⟨hlen, hcur, hbit⟩
        · rw [ReaderLock, if_neg h0]
          simp only [if_neg hw, if_neg hd]
          refine ⟨by simpa [length_orBits] using hlen, hcur, fun _ => ?_⟩
          show ((orBits c.slots (c.current_slot_id_ - 1) (2 ^ p)).getD
            (c.current_slot_id_ - 1) default).used_by &&& used_by_writer ≠ 0
          rw [getD_orBits_self _ _ _ (by omega)]
          show ((c.slots.getD (c.current_slot_id_ - 1) default).used_by |||
            2 ^ p) &&& 2 ^ 31 ≠ 0
          rw [and_two_pow_ne_zero_iff, Nat.testBit_or]
          have : (c.slots.getD (c.current_slot_id_ - 1) default).used_by.testBit 31
              = true := by
            rw [← and_two_pow_ne_zero_iff]
            exact hbit h0
          rw [this]
          rfl
  | readerUnlockOp p hd1 =>
    show ContainerInv N (ReaderUnlock c p hd1).2
    by_cases hz : (c.slots.getD hd1 default).used_by &&& 2 ^ p = 0
    · rw [ReaderUnlock, if_pos hz]
      exact ⟨hlen, hcur, hbit⟩
    · rw [ReaderUnlock, if_neg hz]
      refine ⟨by simpa [length_andBits] using hlen, hcur, fun h0 => ?_⟩
      show ((andBits c.slots hd1 (not32 (2 ^ p))).getD
        (c.current_slot_id_ - 1) default).used_by &&& used_by_writer ≠ 0
      have hp31 : p < 31 := by
        have : p < N := hv
        omega
      by_cases hcase : c.current_slot_id_ - 1 = hd1
      · rw [← hcase, getD_andBits_self _ _ _ (by omega)]
        show ((c.slots.getD (c.current_slot_id_ - 1) default).used_by &&&
          not32 (2 ^ p)) &&& 2 ^ 31 ≠ 0
        rw [and_two_pow_ne_zero_iff,
          testBit_and_not32_ne _ p 31 (by omega) (by omega) (by omega),
          ← and_two_pow_ne_zero_iff]
        exact hbit h0
      · rw [getD_andBits_ne _ _ _ _ hcase]
        exact hbit h0
  | readerResetOp p =>
    show ContainerInv N (ReaderReset c p)
    refine ⟨by rw [length_ReaderReset]; exact hlen, hcur, fun h0 => ?_⟩
    rw [show (ReaderReset c p).current_slot_id_ = c.current_slot_id_ from rfl] at h0 ⊢
    rw [getD_ReaderReset c p _ (by omega)]
    have hp31 : p < 31 := by
      have : p < N := hv
      omega
    rw [readerResetSlot]
    by_cases hcase : (c.slots.getD (c.current_slot_id_ - 1) default).used_by &&&
        2 ^ p ≠ 0
    · rw [if_pos hcase]
      show ((c.slots.getD (c.current_slot_id_ - 1) default).used_by &&&
        not32 (2 ^ p)) &&& 2 ^ 31 ≠ 0
      rw [and_two_pow_ne_zero_iff,
        testBit_and_not32_ne _ p 31 (by omega) (by omega) (by omega),
        ← and_two_pow_ne_zero_iff]
      exact hbit h0
    · rw [if_neg hcase]
      exact hbit h0
  | writerPublishOp m =>
    show ContainerInv N (WriterUpdateMessage c m).2
    cases hf : findFreeSlot c.slots with
    | none =>
      rw [WriterUpdateMessage_none c m hf]
      exact ⟨hlen, hcur, hbit⟩
    | some n =>
      obtain ⟨_, h2, h3, _, _, h6, _, _⟩ := WriterUpdateMessage_spec c m n hf
      obtain ⟨hnlt, hnzero, _⟩ := findFreeSlot_spec c.slots n hf
      have hor : c.current_slot_id_ = 0 ∨ c.current_slot_id_ - 1 ≠ n := by
        by_cases h0 : c.current_slot_id_ = 0
        · exact Or.inl h0
        · refine Or.inr fun hc => ?_
          have := hbit h0
          rw [hc, hnzero] at this
          exact this (by decide)
      refine ⟨by rw [h3]; exact hlen, by omega, fun _ => ?_⟩
      rw [h2, Nat.add_sub_cancel, h6 hor]
      show ((c.slots.getD n default).used_by ||| 2 ^ 31) &&& 2 ^ 31 ≠ 0
      rw [and_two_pow_ne_zero_iff]
      exact testBit_or_two_pow_self _ 31
  | writerResetOp =>
    show ContainerInv N (WriterReset c)
    refine ⟨by rw [show (WriterReset c).slots =
        writerResetSlots ((c.current_slot_id_ : Int) - 1) 0 c.slots from rfl,
        length_writerResetSlots]; exact hlen, hcur, fun h0 => ?_⟩
    rw [show (WriterReset c).current_slot_id_ = c.current_slot_id_ from rfl] at h0 ⊢
    rw [show (WriterReset c).slots =
      writerResetSlots ((c.current_slot_id_ : Int) - 1) 0 c.slots from rfl,
      getD_writerResetSlots _ _ 0 _ (by omega), Nat.zero_add, writerResetSlot,
      if_neg]
    · exact hbit h0
    · intro hcontra
      exact absurd (by omega : ((c.current_slot_id_ - 1 : Nat) : Int) =
        (c.current_slot_id_ : Int) - 1) hcontra.1

/-- Every reachable state satisfies the invariant. -/
lemma Reachable_Inv (N : Nat) (c : SharedDataContainer) (hN : N ≤ 31)
    (hr : Reachable N c) : ContainerInv N c := by
  induction hr with
  | init => exact ContainerInv_init N
  | step op _ hv ih => exact ContainerInv_applyOp N hN _ op hv ih

/-- C8: in every state reachable from the all-zero initial state by
single-threaded sequences of the container's operations with valid process
indices, a nonzero `current_slot_id` points at a slot that carries the
writer-owned bit or at least one reader-pin bit (the code in fact maintains
the stronger left disjunct). -/
theorem C8_current_slot_in_use (N : Nat) (c : SharedDataContainer)
    (hN : N ≤ 31) (hr : Reachable N c) (h0 : c.current_slot_id_ ≠ 0) :
    (c.slots.getD (c.current_slot_id_ - 1) default).used_by &&&
      used_by_writer ≠ 0 ∨
    ∃ p, p < N ∧ (c.slots.getD (c.current_slot_id_ - 1) default).used_by &&&
      2 ^ p ≠ 0 :=
  Or.inl ((Reachable_Inv N c hN hr).2.2 h0)

/-- Witness for C8: the state reached by one publish from the initial state
for three processes. -/
theorem C8_witness :
    (((WriterUpdateMessage (initContainer 3) ⟨5⟩).2.slots.getD
        ((WriterUpdateMessage (initContainer 3) ⟨5⟩).2.current_slot_id_ - 1)
        default).used_by &&& used_by_writer ≠ 0) ∨
    ∃ p, p < 3 ∧ ((WriterUpdateMessage (initContainer 3) ⟨5⟩).2.slots.getD
        ((WriterUpdateMessage (initContainer 3) ⟨5⟩).2.current_slot_id_ - 1)
        default).used_by &&& 2 ^ p ≠ 0 :=
  C8_current_slot_in_use 3 (applyOp (initContainer 3) (.writerPublishOp ⟨5⟩))
    (by decide)
    (Reachable.step (.writerPublishOp ⟨5⟩) Reachable.init trivial)
    (by decide)

/-- C10: in every reachable state `current_slot_id` lies in `[0, N + 1]` and
the slot array has `N + 1` entries, so the handle returned by a successful
`ReaderLock` is a valid slot index in `[0, N]` and `ReaderGetMessage` and
`ReaderUnlock` applied to it access the slot array in bounds. -/
theorem C10_current_slot_id_bounded (N : Nat) (c : SharedDataContainer)
    (hN : N ≤ 31) (hr : Reachable N c) :
    c.current_slot_id_ ≤ N + 1 ∧ c.slots.length = N + 1 ∧
    ∀ p h c2, ReaderLock c p = (.ok h, c2) →
      h < N + 1 ∧ h < c.slots.length := by
  obtain ⟨hlen, hcur, _⟩ := Reachable_Inv N c hN hr
  refine ⟨hcur, hlen, ?_⟩
  intro p h c2 heq
  obtain ⟨h0, hh, _⟩ := ReaderLock_ok_spec c p h c2 heq
  constructor
  · omega
  · omega

/-- Witness for C10: the state reached by one publish from the initial state
for three processes; the handle of a subsequent lock is in bounds. -/
theorem C10_witness :
    (WriterUpdateMessage (initContainer 3) ⟨5⟩).2.current_slot_id_ ≤ 3 + 1 ∧
    (WriterUpdateMessage (initContainer 3) ⟨5⟩).2.slots.length = 3 + 1 ∧
    ∀ p h c2,
      ReaderLock (WriterUpdateMessage (initContainer 3) ⟨5⟩).2 p = (.ok h, c2) →
      h < 3 + 1 ∧
        h < (WriterUpdateMessage (initContainer 3) ⟨5⟩).2.slots.length :=
  C10_current_slot_id_bounded 3 (applyOp (initContainer 3) (.writerPublishOp ⟨5⟩))
    (by decide)
    (Reachable.step (.writerPublishOp ⟨5⟩) Reachable.init trivial)

/-- What one successful publish-then-lock round guarantees: lengths are kept,
the returned handle is in range, carries the locking process's pin and the
just-published payload, and every slot that already carried `p`'s pin keeps
the pin and its payload. -/
lemma pubLockRound_spec (p : Nat) (hp : p < 31) (c c2 : SharedDataContainer)
    (m : Message) (h2 : Nat) (heq : pubLockRound p c m = some (c2, h2)) :
    c2.slots.length = c.slots.length ∧
    h2 < c.slots.length ∧
    (c2.slots.getD h2 default).used_by &&& 2 ^ p ≠ 0 ∧
    (c2.slots.getD h2 default).message = m ∧
    (∀ i, i < c.slots.length → (c.slots.getD i default).used_by &&& 2 ^ p ≠ 0 →
      (c2.slots.getD i default).used_by &&& 2 ^ p ≠ 0 ∧
      (c2.slots.getD i default).message = (c.slots.getD i default).message) := by
  unfold pubLockRound at heq
  split at heq
  case h_2 => exact Option.noConfusion heq
  case h_1 c1 hw =>
  split at heq
  case h_2 => exact Option.noConfusion heq
  case h_1 hh cl hl =>
  have hpair : (cl, hh) = (c2, h2) := Option.some.inj heq
  have hcleq : cl = c2 := congrArg Prod.fst hpair
  have hheq : hh = h2 := congrArg Prod.snd hpair
  cases hf : findFreeSlot c.slots with
  | none =>
    rw [WriterUpdateMessage_none c m hf] at hw
    have : WResult.noFreeSlot = WResult.ok := congrArg Prod.fst hw
    exact WResult.noConfusion this
  | some n =>
    obtain ⟨_, hcur1, hlen1, hframe, hmsg, _, hprev, _⟩ :=
      WriterUpdateMessage_spec c m n hf
    obtain ⟨hnlt, hnzero, _⟩ := findFreeSlot_spec c.slots n hf
    have hsnd : (WriterUpdateMessage c m).2 = c1 := congrArg Prod.snd hw
    rw [hsnd] at hcur1 hlen1 hframe hmsg hprev
    obtain ⟨hne0, hhcur, hwset, hpclear, hc2state⟩ :=
      ReaderLock_ok_spec c1 p hh cl hl
    have hhn : hh = n := by omega
    have hframe1 : ∀ i, i < c.slots.length →
        (c.slots.getD i default).used_by &&& 2 ^ p ≠ 0 →
        (c1.slots.getD i default).used_by &&& 2 ^ p ≠ 0 ∧
        (c1.slots.getD i default).message = (c.slots.getD i default).message := by
      intro i hi hib
      have hin : i ≠ n := by
        intro hc
        rw [hc, hnzero] at hib
        exact hib (by simp)
      by_cases hio : c.current_slot_id_ = 0 ∨ i ≠ c.current_slot_id_ - 1
      · rw [hframe i hin hio]
        exact ⟨hib, rfl⟩
      · have h0 : c.current_slot_id_ ≠ 0 := by tauto
        have hieq : i = c.current_slot_id_ - 1 := by tauto
        have hprevne : c.current_slot_id_ - 1 ≠ n := by omega
        have hprevlt : c.current_slot_id_ - 1 < c.slots.length := by omega
        obtain ⟨hu, hm⟩ := hprev h0 hprevne hprevlt
        rw [← hieq] at hu hm
        constructor
        · rw [hu]
          show ((c.slots.getD i default).used_by &&& not32 (2 ^ 31)) &&&
            2 ^ p ≠ 0
          rw [and_two_pow_ne_zero_iff,
            testBit_and_not32_ne _ 31 p (by omega) (by omega) (by omega),
            ← and_two_pow_ne_zero_iff]
          exact hib
        · rw [hm]
    have hhlt : hh < c1.slots.length := by
      rw [hlen1, hhn]
      exact hnlt
    have hlenc2 : c2.slots.length = c.slots.length := by
      rw [← hcleq, hc2state]
      show (orBits c1.slots hh (2 ^ p)).length = c.slots.length
      rw [length_orBits, hlen1]
    refine ⟨hlenc2, by omega, ?_, ?_, ?_⟩
    · rw [← hcleq, ← hheq, hc2state]
      show ((orBits c1.slots hh (2 ^ p)).getD hh default).used_by &&&
        2 ^ p ≠ 0
      rw [getD_orBits_self _ _ _ hhlt, and_two_pow_ne_zero_iff]
      exact testBit_or_two_pow_self _ p
    · rw [← hcleq, ← hheq, hc2state]
      show ((orBits c1.slots hh (2 ^ p)).getD hh default).message = m
      rw [getD_orBits_self _ _ _ hhlt]
      show (c1.slots.getD hh default).message = m
      rw [hhn]
      exact hmsg
    · intro i hi hib
      obtain ⟨hib1, hm1⟩ := hframe1 i hi hib
      have hihh : i ≠ hh := by
        intro hc
        rw [← hc] at hpclear
        exact hib1 hpclear
      rw [← hcleq, hc2state]
      constructor
      · show ((orBits c1.slots hh (2 ^ p)).getD i default).used_by &&&
          2 ^ p ≠ 0
        rw [getD_orBits_ne _ _ _ _ hihh]
        exact hib1
      · show ((orBits c1.slots hh (2 ^ p)).getD i default).message =
          (c.slots.getD i default).message
        rw [getD_orBits_ne _ _ _ _ hihh]
        exact hm1

/-- What a successful run of the whole scenario guarantees, by induction over
the rounds: one handle per message, each handle in range, each handle's slot
holding the payload published in its round, and pinned slots carried in
unchanged from the start. -/
lemma runRounds_spec (p : Nat) (hp : p < 31) :
    ∀ (ms : List Message) (c cf : SharedDataContainer) (hs : List Nat),
      runRounds p c ms = some (cf, hs) →
      cf.slots.length = c.slots.length ∧
      hs.length = ms.length ∧
      (∀ i, i < c.slots.length → (c.slots.getD i default).used_by &&& 2 ^ p ≠ 0 →
        (cf.slots.getD i default).used_by &&& 2 ^ p ≠ 0 ∧
        (cf.slots.getD i default).message = (c.slots.getD i default).message) ∧
      (∀ t, t < ms.length → hs.getD t 0 < cf.slots.length ∧
        (cf.slots.getD (hs.getD t 0) default).message = ms.getD t default) := by
  intro ms
  induction ms with
  | nil =>
    intro c cf hs heq
    have hpair : (c, ([] : List Nat)) = (cf, hs) := Option.some.inj heq
    have hceq : c = cf := congrArg Prod.fst hpair
    have hhs : ([] : List Nat) = hs := congrArg Prod.snd hpair
    subst hceq
    rw [← hhs]
    exact ⟨rfl, rfl, fun i _ hib => ⟨hib, rfl⟩, fun t ht => absurd ht (by simp)⟩
  | cons m ms ih =>
    intro c cf hs heq
    unfold runRounds at heq
    split at heq
    case h_1 => exact Option.noConfusion heq
    case h_2 c1 h hround =>
    split at heq
    case h_1 => exact Option.noConfusion heq
    case h_2 c2 hs2 hrec =>
    have hpair : (c2, h :: hs2) = (cf, hs) := Option.some.inj heq
    have hceq : c2 = cf := congrArg Prod.fst hpair
    have hhs : h :: hs2 = hs := congrArg Prod.snd hpair
    rw [← hceq, ← hhs]
    obtain ⟨hlen1, hhlt, hpin, hpay, hframe⟩ :=
      pubLockRound_spec p hp c c1 m h hround
    obtain ⟨hlen2, hcnt, hkeep, hhandles⟩ := ih c1 c2 hs2 hrec
    refine ⟨by rw [hlen2, hlen1], by simpa using hcnt, ?_, ?_⟩
    · intro i hi hib
      obtain ⟨hib1, hm1⟩ := hframe i hi hib
      obtain ⟨hib2, hm2⟩ := hkeep i (by omega) hib1
      exact ⟨hib2, by rw [hm2, hm1]⟩
    · intro t ht
      cases t with
      | zero =>
        obtain ⟨hib2, hm2⟩ := hkeep h (by omega) hpin
        refine ⟨?_, ?_⟩
        · show h < c2.slots.length
          rw [hlen2, hlen1]
          exact hhlt
        · show (c2.slots.getD h default).message = m
          rw [hm2, hpay]
      | succ t2 =>
        exact hhandles t2 (by simpa using ht)

/-- C2: along every successful run of the publish-then-lock scenario, the
payload read through each retained handle via `ReaderGetMessage` at the end
equals the payload that was published in the round that produced the handle;
and (the mechanism behind it) a successful `WriterUpdateMessage` never writes
its payload into a slot whose state word is nonzero. -/
theorem C2_retained_handles_read_their_publication (p : Nat) (hp : p < 31)
    (c cf : SharedDataContainer) (ms : List Message) (hs : List Nat)
    (hrun : runRounds p c ms = some (cf, hs)) :
    hs.length = ms.length ∧
    (∀ t, t < ms.length →
      ReaderGetMessage cf (hs.getD t 0) = ms.getD t default) ∧
    (∀ c0 m, (WriterUpdateMessage c0 m).1 = .ok →
      ∀ i, i < c0.slots.length → (c0.slots.getD i default).used_by ≠ 0 →
        ((WriterUpdateMessage c0 m).2.slots.getD i default).message =
          (c0.slots.getD i default).message) := by
  obtain ⟨_, hcnt, _, hhandles⟩ := runRounds_spec p hp ms c cf hs hrun
  refine ⟨hcnt, ?_, ?_⟩
  · intro t ht
    exact (hhandles t ht).2
  · intro c0 m hok i hi hib
    cases hf : findFreeSlot c0.slots with
    | none =>
      rw [WriterUpdateMessage_none c0 m hf] at hok
      exact WResult.noConfusion hok
    | some n =>
      obtain ⟨_, _, _, hframe, _, _, hprev, _⟩ :=
        WriterUpdateMessage_spec c0 m n hf
      obtain ⟨_, hnzero, _⟩ := findFreeSlot_spec c0.slots n hf
      have hin : i ≠ n := by
        intro hc
        rw [hc, hnzero] at hib
        exact hib rfl
      by_cases hio : c0.current_slot_id_ = 0 ∨ i ≠ c0.current_slot_id_ - 1
      · rw [hframe i hin hio]
      · have h0 : c0.current_slot_id_ ≠ 0 := by tauto
        have hieq : i = c0.current_slot_id_ - 1 := by tauto
        have hprevne : c0.current_slot_id_ - 1 ≠ n := by omega
        have hprevlt : c0.current_slot_id_ - 1 < c0.slots.length := by omega
        obtain ⟨_, hm⟩ := hprev h0 hprevne hprevlt
        rw [← hieq] at hm
        exact hm

/-- Witness for C2: process 0 locks after each of two publishes from the
initial three-process container; the two retained handles still read 10
and 20. -/
theorem C2_witness :
    ReaderGetMessage ⟨2, [⟨1, ⟨10⟩⟩, ⟨2 ^ 31 + 1, ⟨20⟩⟩, ⟨0, ⟨0⟩⟩, ⟨0, ⟨0⟩⟩]⟩ 0
        = ⟨10⟩ ∧
    ReaderGetMessage ⟨2, [⟨1, ⟨10⟩⟩, ⟨2 ^ 31 + 1, ⟨20⟩⟩, ⟨0, ⟨0⟩⟩, ⟨0, ⟨0⟩⟩]⟩ 1
        = ⟨20⟩ :=
  ⟨(C2_retained_handles_read_their_publication 0 (by decide) (initContainer 3)
      ⟨2, [⟨1, ⟨10⟩⟩, ⟨2 ^ 31 + 1, ⟨20⟩⟩, ⟨0, ⟨0⟩⟩, ⟨0, ⟨0⟩⟩]⟩
      [⟨10⟩, ⟨20⟩] [0, 1] (by decide)).2.1 0 (by decide),
   (C2_retained_handles_read_their_publication 0 (by decide) (initContainer 3)
      ⟨2, [⟨1, ⟨10⟩⟩, ⟨2 ^ 31 + 1, ⟨20⟩⟩, ⟨0, ⟨0⟩⟩, ⟨0, ⟨0⟩⟩]⟩
      [⟨10⟩, ⟨20⟩] [0, 1] (by decide)).2.1 1 (by decide)⟩

/-- C9: the claim says the binary exits nonzero exactly when the index is
missing or outside `[0, N)`. Evaluating the embedded check of `main` at the
failing input: for `N = 3` the argument `3` is outside `[0, 3)`, yet the check
`process_index > number_of_processes` accepts it (it only rejects indices
strictly greater than `N`), contradicting both the claim and the program's own
error message, which names `N - 1` as the maximal index. A missing argument
and the values `-1` and `N + 1` are handled as the claim says. -/
theorem C9_arg_check_off_by_one :
    mainArgCheckFails 3 (some 3) = false ∧
    ¬ (0 ≤ (3 : Int) ∧ (3 : Int) < 3) ∧
    mainArgCheckFails 3 none = true ∧
    mainArgCheckFails 3 (some 4) = true ∧
    mainArgCheckFails 3 (some (-1)) = true := by
  refine ⟨by decide, by omega, rfl, by decide, ?_⟩
  show decide ((((-1 : Int)) % (2 ^ 32 : Int)).toNat > 3) = true
  rw [decide_eq_true_eq]
  decide
